import Mathlib

/-!
Verification of the First-Party-Sets validation engine (`FpsCheck.py`).

The source's checkers are embedded shallowly: each Python method of the
`FpsCheck` class becomes a Lean function over explicit data, the shared
mutable `error_list` becomes the returned list of findings, and the HTTP
collaborators (`urlopen`/`requests.get`) become oracle parameters.  Python
exceptions raised out of a checker are modelled with `Except`; exceptions
caught inside a checker are modelled by the finding the handler appends.

Conventions for the Python-to-Lean translation:
- An absent JSON field / a Python `None` is `Option.none`; Python truthiness
  of a list-or-None value (`if xs:`) is the `truthy` predicate below (both
  `None` and `[]` are falsy).
- Python `dict`s preserve insertion order, so they are association lists;
  keys are unique where the source only ever inserts missing keys.
- The schema validation step (spec section 7's fail-fast boundary) runs
  before every checker, so each set record carries a `primary` string.
- Finding messages are represented structurally: one `Finding` constructor
  per `error_list.append` site in the source, carrying the data interpolated
  into the message.  (`find_robots_txt` and `find_ads_txt` build their
  "unexpected error" messages with slightly different separators; both are
  `Finding.unexpectedError`.)
- Python set iteration order is unspecified; where the source iterates a
  `set` (the `schema_fields` loop of `find_invalid_well_known`) a fixed
  order is used, matching the order of the `acceptable_fields` literal.
-/

/-- Python truthiness of a list-valued field that may be `None`:
`None` and the empty list are falsy. -/
def truthy {α : Type} : Option (List α) → Bool
  | some (_ :: _) => true
  | _ => false

/-- `FpsSet` (from `FpsSet.py`, not among the repository's staged files).
Modelled from the spec: a plain container for one set's fields, in the
constructor order `FpsCheck.load_sets` uses (`FpsSet(ccTLDs, primary,
associated_sites, service_sites)`). -/
structure FpsSet where
  ccTLDs : Option (List (String × List String))
  primary : String
  associated_sites : Option (List String)
  service_sites : Option (List String)
  deriving DecidableEq

/-- One raw record of the submission's `sets` list (the fields
`load_sets` and `has_all_rationales` read from it). -/
structure SetRecord where
  primary : String
  ccTLDs : Option (List (String × List String))
  associatedSites : Option (List String)
  serviceSites : Option (List String)
  rationaleBySite : Option (List (String × String))
  deriving DecidableEq

/-- Where a domain occurs inside a set (the five roles
`find_non_https_urls` distinguishes). -/
inductive Role where
  | primarySite
  | aliasKey
  | aliasValue
  | associated
  | service
  deriving DecidableEq

/-- One entry of `error_list`: a constructor per `append` site of
`FpsCheck.py`, carrying the data the message interpolates. -/
inductive Finding where
  | duplicatePrimary (primary : String)
  | noRationale
  | missingRationale (site : String)
  | exclusivityPrimary (primary : String)
  | exclusivityAssociated (overlap : List String)
  | exclusivityService (overlap : List String)
  | exclusivityCcTLD (overlap : List String)
  | nonHttps (role : Role) (site : String)
  | aliasMembership (alias_site primary : String)
  | aliasLabelMismatch (alias_site site : String)
  | invalidCountryCode (code site : String)
  | wkMismatch (field : String) (members : List String)
  | wkUnreachable (url error : String)
  | wkNoPrimaryKey (site : String)
  | wkWrongPrimary (primary site : String)
  | robotsNoTag (site : String)
  | robotsNotNoindex (site : String)
  | adsTxt (site : String)
  | endpoint (site : String)
  | unexpectedError (site error : String)
  deriving DecidableEq

/-- `FpsSet(ccTLDs, primary, associated_sites, service_sites)` as built by
`load_sets` from one record. -/
def mkFpsSet (r : SetRecord) : FpsSet :=
  ⟨r.ccTLDs, r.primary, r.associatedSites, r.serviceSites⟩

/-- The loop of `load_sets`: `check_sets` is the ordered dictionary built so
far, `errs` the `load_sets_errors` accumulator. -/
def load_sets_go :
    List (String × FpsSet) → List Finding → List SetRecord →
    List (String × FpsSet) × List Finding
  | cs, errs, [] => (cs, errs)
  | cs, errs, r :: rest =>
    if (cs.lookup r.primary).isSome then
      load_sets_go cs (errs ++ [Finding.duplicatePrimary r.primary]) rest
    else
      load_sets_go (cs ++ [(r.primary, mkFpsSet r)]) errs rest

/-- `FpsCheck.load_sets`: returns the `primary -> FpsSet` dictionary and the
errors it appended to `error_list`. -/
def load_sets (recs : List SetRecord) : List (String × FpsSet) × List Finding :=
  load_sets_go [] [] recs

/-- Spec-side description of `load_sets`' mapping: keep the first record for
each primary, dropping records whose primary was already seen. -/
def firstWins (seen : List String) : List SetRecord → List (String × FpsSet)
  | [] => []
  | r :: rs =>
    if r.primary ∈ seen then firstWins seen rs
    else (r.primary, mkFpsSet r) :: firstWins (seen ++ [r.primary]) rs

/-- Spec-side description of `load_sets`' findings: exactly one
duplicate-primary finding per record whose primary was already seen. -/
def dupFindings (seen : List String) : List SetRecord → List Finding
  | [] => []
  | r :: rs =>
    if r.primary ∈ seen then
      Finding.duplicatePrimary r.primary :: dupFindings seen rs
    else dupFindings (seen ++ [r.primary]) rs

lemma lookup_isSome_iff_mem (cs : List (String × FpsSet)) (p : String) :
    (cs.lookup p).isSome = true ↔ p ∈ cs.map Prod.fst := by
  induction cs with
  | nil => simp [List.lookup]
  | cons hd tl ih =>
    cases hd with
    | mk k v =>
      by_cases h : k = p
      · subst h
        simp [List.lookup]
      · have hne : (p == k) = false := beq_false_of_ne (Ne.symm h)
        simp [List.lookup, hne, ih, Ne.symm h]

lemma load_sets_go_spec (recs : List SetRecord) :
    ∀ (cs : List (String × FpsSet)) (errs : List Finding),
      load_sets_go cs errs recs =
        (cs ++ firstWins (cs.map Prod.fst) recs,
         errs ++ dupFindings (cs.map Prod.fst) recs) := by
  induction recs with
  | nil => intro cs errs; simp [load_sets_go, firstWins, dupFindings]
  | cons r rest ih =>
    intro cs errs
    by_cases h : r.primary ∈ cs.map Prod.fst
    · have hl : (cs.lookup r.primary).isSome = true :=
        (lookup_isSome_iff_mem cs r.primary).mpr h
      simp [load_sets_go, hl, firstWins, dupFindings, h, ih]
    · have hl : (cs.lookup r.primary).isSome = false := by
        rw [Bool.eq_false_iff]
        intro hcon
        exact h ((lookup_isSome_iff_mem cs r.primary).mp hcon)
      rw [load_sets_go, if_neg (by simp [hl]), ih]
      simp [firstWins, dupFindings, h]

/-- C4: `load_sets` keeps the first record for every primary (a record whose
primary is already a key is discarded, the earlier entry untouched), appends
exactly one duplicate-primary finding per discarded record, and still
returns the (possibly partial) mapping. -/
theorem c4_load_sets_first_wins (recs : List SetRecord) :
    load_sets recs = (firstWins [] recs, dupFindings [] recs) := by
  have h := load_sets_go_spec recs [] []
  simpa [load_sets] using h

/-- `site_list.update(primary)` in `check_exclusivity` iterates the *string*
`primary`, so it adds each character of the primary as its own one-character
element, not the primary itself. -/
def charElems (s : String) : List String :=
  s.data.map Char.toString

/-- The ccTLD loop of `check_exclusivity`: per alias key, intersect the alias
sites with the running `site_list`; on overlap report it (and do not add the
sites), otherwise add them. -/
def exclusivity_ccTLDs :
    List String → List (String × List String) → List Finding × List String
  | sl, [] => ([], sl)
  | sl, (_, vs) :: rest =>
    let ov := (vs.filter (fun x => sl.contains x)).dedup
    if ov.isEmpty then
      exclusivity_ccTLDs (sl ++ vs) rest
    else
      let r := exclusivity_ccTLDs sl rest
      (Finding.exclusivityCcTLD ov :: r.1, r.2)

/-- The per-set body and loop of `FpsCheck.check_exclusivity`, with
`site_list` passed explicitly.  Python's `set(...) & site_list` overlap is
the deduplicated filter; `site_list.update(primary)` adds the primary's
characters (see `charElems`), while the list-valued updates add the
domains themselves. -/
def check_exclusivity_go : List String → List FpsSet → List Finding
  | _, [] => []
  | sl, fps :: rest =>
    let p1 : List Finding × List String :=
      if sl.contains fps.primary then
        ([Finding.exclusivityPrimary fps.primary], sl)
      else ([], sl ++ charElems fps.primary)
    let p2 : List Finding × List String :=
      if truthy fps.associated_sites then
        let a := fps.associated_sites.getD []
        let ov := (a.filter (fun x => p1.2.contains x)).dedup
        if ov.isEmpty then ([], p1.2 ++ a)
        else ([Finding.exclusivityAssociated ov], p1.2)
      else ([], p1.2)
    let p3 : List Finding × List String :=
      if truthy fps.service_sites then
        let s := fps.service_sites.getD []
        let ov := (s.filter (fun x => p2.2.contains x)).dedup
        if ov.isEmpty then ([], p2.2 ++ s)
        else ([Finding.exclusivityService ov], p2.2)
      else ([], p2.2)
    let p4 : List Finding × List String :=
      if truthy fps.ccTLDs then exclusivity_ccTLDs p3.2 (fps.ccTLDs.getD [])
      else ([], p3.2)
    p1.1 ++ p2.1 ++ p3.1 ++ p4.1 ++ check_exclusivity_go p4.2 rest

/-- `FpsCheck.check_exclusivity` over the sets in dictionary order. -/
def check_exclusivity (cs : List FpsSet) : List Finding :=
  check_exclusivity_go [] cs

/-- C1 (code evaluated at the failing input): domain `https://a.example` is
the primary of the first set and an associated site of the second,
later-processed set, yet `check_exclusivity` reports *no* finding — because
`site_list.update(primary)` registers only the primary's characters, a
primary never occupies its domain in `site_list`, contradicting the claim
(and the method's own docstring) that a primary of one set cannot be an
associated site of another. -/
theorem c1_exclusivity_misses_primary_conflict :
    check_exclusivity
      [⟨none, "https://a.example", none, none⟩,
       ⟨none, "https://b.example", some ["https://a.example"], none⟩] = [] := by
  rfl

/-- `FpsCheck.url_is_https`. -/
def url_is_https (site : String) : Bool :=
  site.startsWith "https://"

/-- `FpsCheck.find_non_https_urls`: walk every set in order, checking the
primary, then the ccTLD alias keys and their values, then the associated
sites, then the service sites. -/
def find_non_https_urls : List FpsSet → List Finding
  | [] => []
  | fps :: rest =>
    (if url_is_https fps.primary then []
     else [Finding.nonHttps Role.primarySite fps.primary]) ++
    (if truthy fps.ccTLDs then
      (fps.ccTLDs.getD []).flatMap (fun kv =>
        (if url_is_https kv.1 then []
         else [Finding.nonHttps Role.aliasKey kv.1]) ++
        kv.2.flatMap (fun v =>
          if url_is_https v then []
          else [Finding.nonHttps Role.aliasValue v]))
     else []) ++
    (if truthy fps.associated_sites then
      (fps.associated_sites.getD []).flatMap (fun a =>
        if url_is_https a then [] else [Finding.nonHttps Role.associated a])
     else []) ++
    (if truthy fps.service_sites then
      (fps.service_sites.getD []).flatMap (fun s =>
        if url_is_https s then [] else [Finding.nonHttps Role.service s])
     else []) ++
    find_non_https_urls rest

/-- Every (role, domain) occurrence of one set, in the order
`find_non_https_urls` visits them. -/
def setOccurrences (fps : FpsSet) : List (Role × String) :=
  (Role.primarySite, fps.primary) ::
  ((fps.ccTLDs.getD []).flatMap (fun kv =>
    (Role.aliasKey, kv.1) :: kv.2.map (fun v => (Role.aliasValue, v))) ++
   (fps.associated_sites.getD []).map (fun a => (Role.associated, a)) ++
   (fps.service_sites.getD []).map (fun s => (Role.service, s)))

/-- Every (role, domain) occurrence of a whole model. -/
def allOccurrences (cs : List FpsSet) : List (Role × String) :=
  cs.flatMap setOccurrences

/-- The finding an occurrence yields when its domain lacks the
encrypted-transport form, and nothing otherwise. -/
def nonHttpsOf (rd : Role × String) : Option Finding :=
  if url_is_https rd.2 then none else some (Finding.nonHttps rd.1 rd.2)

lemma flatMap_nonHttps (l : List String) (r : Role) :
    (l.flatMap (fun a =>
      if url_is_https a then [] else [Finding.nonHttps r a])) =
    (l.map (fun a => (r, a))).filterMap nonHttpsOf := by
  induction l with
  | nil => rfl
  | cons x xs ih =>
    by_cases h : url_is_https x <;>
      simp [List.flatMap_cons, List.filterMap_cons, nonHttpsOf, h, ih]

lemma flatMap_nonHttps_ccTLDs (l : List (String × List String)) :
    (l.flatMap (fun kv =>
      (if url_is_https kv.1 then []
       else [Finding.nonHttps Role.aliasKey kv.1]) ++
      kv.2.flatMap (fun v =>
        if url_is_https v then []
        else [Finding.nonHttps Role.aliasValue v]))) =
    (l.flatMap (fun kv =>
      (Role.aliasKey, kv.1) :: kv.2.map (fun v => (Role.aliasValue, v)))
      ).filterMap nonHttpsOf := by
  induction l with
  | nil => rfl
  | cons kv rest ih =>
    by_cases h : url_is_https kv.1 <;>
      simp [List.flatMap_cons, List.filterMap_cons, List.filterMap_append,
            nonHttpsOf, h, ih, flatMap_nonHttps kv.2 Role.aliasValue]

lemma guarded_nonHttps (o : Option (List String)) (r : Role) :
    (if truthy o then
      (o.getD []).flatMap (fun a =>
        if url_is_https a then [] else [Finding.nonHttps r a])
     else []) = ((o.getD []).map (fun a => (r, a))).filterMap nonHttpsOf := by
  cases o with
  | none => simp [truthy]
  | some l =>
    cases l with
    | nil => simp [truthy]
    | cons x xs => simpa [truthy] using flatMap_nonHttps (x :: xs) r

lemma guarded_nonHttps_ccTLDs (o : Option (List (String × List String))) :
    (if truthy o then
      (o.getD []).flatMap (fun kv =>
        (if url_is_https kv.1 then []
         else [Finding.nonHttps Role.aliasKey kv.1]) ++
        kv.2.flatMap (fun v =>
          if url_is_https v then []
          else [Finding.nonHttps Role.aliasValue v]))
     else []) =
    ((o.getD []).flatMap (fun kv =>
      (Role.aliasKey, kv.1) :: kv.2.map (fun v => (Role.aliasValue, v)))
      ).filterMap nonHttpsOf := by
  cases o with
  | none => simp [truthy]
  | some l =>
    cases l with
    | nil => simp [truthy]
    | cons x xs => simpa [truthy] using flatMap_nonHttps_ccTLDs (x :: xs)

/-- C10: `find_non_https_urls` reports exactly one non-https finding per
occurrence of a domain that does not begin with `https://`, whatever role
(primary, alias key, alias value, associated, service) the occurrence has:
its output is precisely the occurrence list filtered to the non-https ones,
each mapped to its finding. -/
theorem c10_non_https_per_occurrence (cs : List FpsSet) :
    find_non_https_urls cs = (allOccurrences cs).filterMap nonHttpsOf := by
  induction cs with
  | nil => rfl
  | cons fps rest ih =>
    rw [find_non_https_urls, guarded_nonHttps_ccTLDs fps.ccTLDs,
        guarded_nonHttps fps.associated_sites Role.associated,
        guarded_nonHttps fps.service_sites Role.service]
    by_cases h : url_is_https fps.primary <;>
      simp [allOccurrences, setOccurrences, List.filterMap_cons,
            List.filterMap_append, nonHttpsOf, h, ih]

/-- `FpsCheck.has_all_rationales`: iterate the raw records, look the record's
primary up in `check_sets` (a missing key is Python's `KeyError`), build
`sites` exactly as the source does (associated sites, extended by the
service sites when both are truthy, else the service-sites value), then
report a finding per union domain missing from `rationaleBySite`, or one
whole-set finding when `sites` is not `None` while `rationaleBySite` is. -/
def has_all_rationales (records : List SetRecord)
    (cs : List (String × FpsSet)) : Except String (List Finding) :=
  match records with
  | [] => .ok []
  | r :: rest =>
    match cs.lookup r.primary with
    | none => .error "KeyError"
    | some fps =>
      let sitesOpt : Option (List String) :=
        if truthy fps.associated_sites then
          some ((fps.associated_sites.getD []) ++
            (if truthy fps.service_sites then fps.service_sites.getD []
             else []))
        else fps.service_sites
      let here : List Finding :=
        (match r.rationaleBySite with
         | some rat =>
           if truthy sitesOpt then
             (sitesOpt.getD []).filterMap (fun site =>
               if (rat.lookup site).isSome then none
               else some (Finding.missingRationale site))
           else []
         | none => []) ++
        (if sitesOpt.isSome && r.rationaleBySite.isNone then
          [Finding.noRationale]
         else [])
      match has_all_rationales rest cs with
      | .error e => .error e
      | .ok fs => .ok (here ++ fs)

/-- The union of a record's associated and service sites, as the spec words
it ("compute the union of associatedSites and serviceSites"). -/
def unionSites (r : SetRecord) : List String :=
  r.associatedSites.getD [] ++ r.serviceSites.getD []

/-- C7: on the model loaded from a record, when the union of associated and
service sites is non-empty but `rationaleBySite` is entirely absent the
rationale checker emits exactly one whole-set finding (not one per domain);
when `rationaleBySite` is present, it emits one individual finding per union
domain missing from it. -/
theorem c7_rationale_findings (r : SetRecord) :
    (r.rationaleBySite = none → unionSites r ≠ [] →
      has_all_rationales [r] (load_sets [r]).1 = .ok [Finding.noRationale]) ∧
    (∀ rat, r.rationaleBySite = some rat →
      has_all_rationales [r] (load_sets [r]).1 =
        .ok ((unionSites r).filterMap (fun site =>
          if (rat.lookup site).isSome then none
          else some (Finding.missingRationale site)))) := by
  have hload : (load_sets [r]).1 = [(r.primary, mkFpsSet r)] := by
    simp [load_sets, load_sets_go, List.lookup]
  constructor
  · intro hrat hne
    rw [hload]
    rcases ha : r.associatedSites with _ | al
    · rcases hs : r.serviceSites with _ | sl
      · exact absurd (by simp [unionSites, ha, hs]) hne
      · simp [has_all_rationales, List.lookup, mkFpsSet, ha, hs, hrat, truthy]
    · cases al with
      | nil =>
        rcases hs : r.serviceSites with _ | sl
        · exact absurd (by simp [unionSites, ha, hs]) hne
        · simp [has_all_rationales, List.lookup, mkFpsSet, ha, hs, hrat,
                truthy]
      | cons a as =>
        simp [has_all_rationales, List.lookup, mkFpsSet, ha, hrat, truthy]
  · intro rat hrat
    rw [hload]
    rcases ha : r.associatedSites with _ | al
    · rcases hs : r.serviceSites with _ | sl
      · simp [has_all_rationales, List.lookup, mkFpsSet, ha, hs, hrat,
              truthy, unionSites]
      · cases sl with
        | nil =>
          simp [has_all_rationales, List.lookup, mkFpsSet, ha, hs, hrat,
                truthy, unionSites]
        | cons s ss =>
          simp [has_all_rationales, List.lookup, mkFpsSet, ha, hs, hrat,
                truthy, unionSites]
    · cases al with
      | nil =>
        rcases hs : r.serviceSites with _ | sl
        · simp [has_all_rationales, List.lookup, mkFpsSet, ha, hs, hrat,
                truthy, unionSites]
        · cases sl with
          | nil =>
            simp [has_all_rationales, List.lookup, mkFpsSet, ha, hs, hrat,
                  truthy, unionSites]
          | cons s ss =>
            simp [has_all_rationales, List.lookup, mkFpsSet, ha, hs, hrat,
                  truthy, unionSites]
      | cons a as =>
        rcases hs : r.serviceSites with _ | sl
        · simp [has_all_rationales, List.lookup, mkFpsSet, ha, hs, hrat,
                truthy, unionSites]
        · cases sl with
          | nil =>
            simp [has_all_rationales, List.lookup, mkFpsSet, ha, hs, hrat,
                  truthy, unionSites]
          | cons s ss =>
            simp [has_all_rationales, List.lookup, mkFpsSet, ha, hs, hrat,
                  truthy, unionSites]

/-- Witness for C7: a set with one service site and no `rationaleBySite`
gets exactly the whole-set finding; a set with one associated site and an
empty `rationaleBySite` mapping gets exactly the per-domain finding. -/
theorem c7_rationale_findings_witness :
    has_all_rationales
      [⟨"https://p.example", none, none, some ["https://svc.example"], none⟩]
      (load_sets
        [⟨"https://p.example", none, none, some ["https://svc.example"],
          none⟩]).1 = .ok [Finding.noRationale] ∧
    has_all_rationales
      [⟨"https://p.example", none, some ["https://b.example"], none,
        some []⟩]
      (load_sets
        [⟨"https://p.example", none, some ["https://b.example"], none,
          some []⟩]).1 =
      .ok ((unionSites
        ⟨"https://p.example", none, some ["https://b.example"], none,
          some []⟩).filterMap (fun site =>
            if ((List.lookup site ([] : List (String × String))).isSome) then
              none
            else some (Finding.missingRationale site))) :=
  ⟨(c7_rationale_findings _).1 rfl (by decide),
   (c7_rationale_findings _).2 [] rfl⟩

/-- Split a character list at every `'.'` (Python's `str.split(".")`;
always at least one piece). -/
def splitDots : List Char → List (List Char)
  | [] => [[]]
  | c :: rest =>
    match splitDots rest with
    | [] => [[]]
    | p :: ps => if c = '.' then [] :: p :: ps else (c :: p) :: ps

/-- Python's `s.split(".")` as a list of strings. -/
def pySplitDot (s : String) : List String :=
  (splitDots s.data).map String.mk

/-- Rejoin pieces with `"."` (for Python's `s.split(".", 1)` remainder). -/
def joinDots : List String → String
  | [] => ""
  | [x] => x
  | x :: rest => x ++ "." ++ joinDots rest

/-- Python's `s.split(".", 1)` unpacked into two variables:
`none` models the `ValueError` raised when `s` has no `"."`. -/
def split1 (s : String) : Option (String × String) :=
  match pySplitDot s with
  | [] => none
  | [_] => none
  | x :: rest => some (x, joinDots rest)

/-- Python's `site.split(".")[0]`. -/
def firstLabel (s : String) : String :=
  (pySplitDot s).headD ""

/-- Python's `site.split(".")[-1]`. -/
def lastLabel (s : String) : String :=
  (pySplitDot s).getLastD ""

/-- The membership check of `find_invalid_alias_eSLDs` for one alias key.
Returns its findings together with the set's associated-sites value after
the check: the source's `sites += curr_set.service_sites` extends the
associated-sites *list object* in place whenever both lists are truthy, so
that mutation is threaded to later keys. -/
def aliasKeyMembership (primary : String) (assoc service : Option (List String))
    (key : String) : List Finding × Option (List String) :=
  if key = primary then ([], assoc)
  else
    let sites0 := if truthy assoc then assoc.getD [] else []
    let sites := sites0 ++ (if truthy service then service.getD [] else [])
    let assoc2 := if truthy assoc && truthy service then some sites else assoc
    ((if sites.contains key then [] else [Finding.aliasMembership key primary]),
     assoc2)

/-- The per-sibling loop of `find_invalid_alias_eSLDs` for one (already
split) alias key: a label-mismatch finding when the part before the first
dot differs from the key's, and an invalid-country-code finding when the
last label is outside `icanns` (extended by `"com"` when the key's own
after-the-first-dot part is in `icanns`). -/
def siblingFindings (icanns : List String) (key dom tld : String)
    (sibs : List String) : List Finding :=
  let icann_check := if icanns.contains tld then "com" :: icanns else icanns
  sibs.flatMap (fun s =>
    (if firstLabel s ≠ dom then [Finding.aliasLabelMismatch key s] else []) ++
    (if icann_check.contains (lastLabel s) then []
     else [Finding.invalidCountryCode (lastLabel s) s]))

/-- The alias-key loop of `find_invalid_alias_eSLDs` for one set, threading
the (possibly mutated) associated-sites value; `.error` is the uncaught
`ValueError` from unpacking `aliased_site.split(".", 1)`. -/
def processAliases (icanns : List String) (primary : String)
    (service : Option (List String)) :
    Option (List String) → List (String × List String) →
    Except String (List Finding)
  | _, [] => .ok []
  | assoc, (key, sibs) :: rest =>
    let m := aliasKeyMembership primary assoc service key
    match split1 key with
    | none => .error "ValueError"
    | some dt =>
      match processAliases icanns primary service m.2 rest with
      | .error e => .error e
      | .ok fs => .ok (m.1 ++ siblingFindings icanns key dt.1 dt.2 sibs ++ fs)

/-- `FpsCheck.find_invalid_alias_eSLDs` over the sets in dictionary order;
an `.error` result is the uncaught exception aborting the checker. -/
def find_invalid_alias_eSLDs (icanns : List String) :
    List FpsSet → Except String (List Finding)
  | [] => .ok []
  | fps :: rest =>
    match (if truthy fps.ccTLDs then
      processAliases icanns fps.primary fps.service_sites
        fps.associated_sites (fps.ccTLDs.getD [])
     else .ok []) with
    | .error e => .error e
    | .ok fs =>
      match find_invalid_alias_eSLDs icanns rest with
      | .error e => .error e
      | .ok fs2 => .ok (fs ++ fs2)

/-- The result is a normal return rather than an uncaught exception. -/
def isOkE {ε α : Type} : Except ε α → Bool
  | .ok _ => true
  | .error _ => false

/-- Every ccTLD alias key of every set that the checker iterates contains at
least one `"."`. -/
def aliasKeysDotted (cs : List FpsSet) : Bool :=
  cs.all (fun fps => (fps.ccTLDs.getD []).all (fun kv => (split1 kv.1).isSome))


lemma processAliases_isOk (icanns : List String) (primary : String)
    (service : Option (List String)) (keys : List (String × List String)) :
    ∀ assoc, isOkE (processAliases icanns primary service assoc keys) =
      keys.all (fun kv => (split1 kv.1).isSome) := by
  induction keys with
  | nil => intro assoc; rfl
  | cons kv rest ih =>
    intro assoc
    cases kv with
    | mk key sibs =>
      rw [List.all_cons,
          ← ih (aliasKeyMembership primary assoc service key).2]
      rcases hs : split1 key with _ | dt
      · simp [processAliases, hs, isOkE]
      · rcases hr : processAliases icanns primary service
          (aliasKeyMembership primary assoc service key).2 rest with e | fs
        · simp [processAliases, hs, hr, isOkE]
        · simp [processAliases, hs, hr, isOkE]

/-- C2: `find_invalid_alias_eSLDs` returns normally exactly when every ccTLD
alias key it iterates contains a `"."`; a key with no `"."` makes the
two-way unpacking of `split(".", 1)` raise an uncaught `ValueError`,
aborting the remainder of the pass instead of appending a finding. -/
theorem c2_alias_checker_totality (icanns : List String) (cs : List FpsSet) :
    isOkE (find_invalid_alias_eSLDs icanns cs) = aliasKeysDotted cs := by
  induction cs with
  | nil => rfl
  | cons fps rest ih =>
    have hsplit : aliasKeysDotted (fps :: rest) =
        (((fps.ccTLDs.getD []).all (fun kv => (split1 kv.1).isSome)) &&
          aliasKeysDotted rest) := rfl
    rw [hsplit]
    have hhere : isOkE (if truthy fps.ccTLDs then
        processAliases icanns fps.primary fps.service_sites
          fps.associated_sites (fps.ccTLDs.getD [])
       else .ok []) =
        (fps.ccTLDs.getD []).all (fun kv => (split1 kv.1).isSome) := by
      rcases hc : fps.ccTLDs with _ | l
      · simp [truthy, isOkE]
      · cases l with
        | nil => simp [truthy, isOkE]
        | cons kv kvs =>
          simpa [truthy] using
            processAliases_isOk icanns fps.primary fps.service_sites
              (kv :: kvs) fps.associated_sites
    rw [← hhere, ← ih]
    rcases h1 : (if truthy fps.ccTLDs then
        processAliases icanns fps.primary fps.service_sites
          fps.associated_sites (fps.ccTLDs.getD [])
       else .ok []) with e | fs
    · simp [find_invalid_alias_eSLDs, h1, isOkE]
    · rcases h2 : find_invalid_alias_eSLDs icanns rest with e2 | fs2
      · simp [find_invalid_alias_eSLDs, h1, h2, isOkE]
      · simp [find_invalid_alias_eSLDs, h1, h2, isOkE]

/-- The findings list of a normal return (an aborted run keeps none). -/
def okFindings : Except String (List Finding) → List Finding
  | .ok l => l
  | .error _ => []

/-- Is a finding an invalid-country-code finding? -/
def isCountryFinding : Finding → Bool
  | .invalidCountryCode _ _ => true
  | _ => false

/-- Spec-side: the recognized country codes, widened with `"com"` exactly
when the alias key's own after-the-first-dot part is itself recognized. -/
def widenedCountryCodes (icanns : List String) (tld : String) : List String :=
  if icanns.contains tld then "com" :: icanns else icanns

lemma siblingFindings_country (icanns : List String) (key dom tld : String)
    (sibs : List String) :
    (siblingFindings icanns key dom tld sibs).filter isCountryFinding =
      sibs.filterMap (fun s =>
        if (widenedCountryCodes icanns tld).contains (lastLabel s) then none
        else some (Finding.invalidCountryCode (lastLabel s) s)) := by
  induction sibs with
  | nil => rfl
  | cons s ss ih =>
    have ih2 := ih
    simp only [siblingFindings, widenedCountryCodes] at ih2 ⊢
    simp at ih2
    by_cases h1 : firstLabel s = dom <;>
      by_cases h2 :
        lastLabel s ∈ (if tld ∈ icanns then "com" :: icanns else icanns) <;>
      simp [List.filter_append, List.filterMap_cons, isCountryFinding,
            h1, h2, ih2]

/-- C5: (general) for a single-key set whose alias key is its primary, the
invalid-country-code findings are exactly the siblings whose last label is
outside the recognized set widened with `"com"` exactly when the key's own
after-the-first-dot part is recognized; (concrete) with recognized codes
`{"co"}`, the set `"https://example.co" -> ["https://example.fr"]` yields
exactly one invalid-country-code finding, naming `"https://example.fr"`. -/
theorem c5_alias_country_codes :
    (∀ (icanns : List String) (primary : String) (sibs : List String)
        (dom tld : String), split1 primary = some (dom, tld) →
      (okFindings (find_invalid_alias_eSLDs icanns
          [⟨some [(primary, sibs)], primary, none, none⟩])).filter
          isCountryFinding =
        sibs.filterMap (fun s =>
          if (widenedCountryCodes icanns tld).contains (lastLabel s) then none
          else some (Finding.invalidCountryCode (lastLabel s) s))) ∧
    find_invalid_alias_eSLDs ["co"]
        [⟨some [("https://example.co", ["https://example.fr"])],
          "https://example.co", none, none⟩] =
      .ok [Finding.invalidCountryCode "fr" "https://example.fr"] := by
  constructor
  · intro icanns primary sibs dom tld hsplit
    have hmem : aliasKeyMembership primary (none : Option (List String))
        (none : Option (List String)) primary = ([], none) := by
      simp [aliasKeyMembership]
    rw [find_invalid_alias_eSLDs]
    simp only [truthy, Option.getD_some]
    rw [processAliases]
    simp only [hmem, hsplit]
    rw [processAliases, find_invalid_alias_eSLDs]
    simp [okFindings, siblingFindings_country]
  · rfl

/-- Witness for C5's general part, instantiated at the spec's concrete
scenario: recognized codes `{"co"}`, key `"https://example.co"` (its
after-the-first-dot part `"co"` is recognized, so `"com"` is additionally
acceptable), sibling `"https://example.fr"`. -/
theorem c5_alias_country_codes_witness :
    (okFindings (find_invalid_alias_eSLDs ["co"]
        [⟨some [("https://example.co", ["https://example.fr"])],
          "https://example.co", none, none⟩])).filter isCountryFinding =
      (["https://example.fr"].filterMap (fun s =>
        if (widenedCountryCodes ["co"] "co").contains (lastLabel s) then none
        else some (Finding.invalidCountryCode (lastLabel s) s))) :=
  c5_alias_country_codes.1 ["co"] "https://example.co" ["https://example.fr"]
    "https://example" "co" rfl

/-- The fixed well-known path appended to every fetched domain. -/
def wkPath : String := "/.well-known/first-party-set.json"

/-- A fetched well-known document: `none` in a field means the JSON object
has no such key. -/
structure WKDoc where
  primary : Option String
  ccTLDs : Option (List (String × List String))
  associatedSites : Option (List String)
  serviceSites : Option (List String)
  deriving DecidableEq

/-- The `open_and_load_json` collaborator: fetch and parse a URL, or fail
with the exception's text. -/
abbrev JsonOracle := String → Except String WKDoc

/-- `FpsCheck.check_list_sites`: per member site, fetch its well-known
document; a fetch/parse failure is caught as one unreachable finding, a
missing `primary` key or a `primary` differing from the set's is a finding,
and the loop continues either way. -/
def check_list_sites (oracle : JsonOracle) (primary : String) :
    List String → List Finding
  | [] => []
  | site :: rest =>
    (match oracle (site ++ wkPath) with
     | .error e => [Finding.wkUnreachable (site ++ wkPath) e]
     | .ok doc =>
       match doc.primary with
       | none => [Finding.wkNoPrimaryKey site]
       | some p =>
         if p ≠ primary then [Finding.wkWrongPrimary primary site] else []) ++
    check_list_sites oracle primary rest

/-- Byte-order comparison of characters (Python's string ordering). -/
def charsLe : List Char → List Char → Bool
  | [], _ => true
  | _ :: _, [] => false
  | a :: as, b :: bs => if a = b then charsLe as bs else decide (a.toNat < b.toNat)

/-- Python's `<` on strings. -/
def strLeB (a b : String) : Bool :=
  charsLe a.data b.data

/-- Insert into a sorted list (for `pySorted`). -/
def insertStr (x : String) : List String → List String
  | [] => [x]
  | y :: ys => if strLeB x y then x :: y :: ys else y :: insertStr x ys

/-- Python's `sorted` on a list of strings. -/
def pySorted : List String → List String
  | [] => []
  | x :: xs => insertStr x (pySorted xs)

/-- Python's `set(a) ^ set(b)` as a raw list (order and duplicates are
immaterial: the caller deduplicates and sorts before reporting). -/
def symDiffRaw (a b : List String) : List String :=
  a.filter (fun x => !b.contains x) ++ b.filter (fun x => !a.contains x)

/-- The per-alias accumulation of the ccTLDs comparison: for every alias key
of the *fetched* document, look the key up in the submitted ccTLDs (a
missing key raises Python's `KeyError`) and accumulate the symmetric
difference of the two sibling lists. -/
def ccDiff (sub : List (String × List String)) :
    List String → List (String × List String) → Except String (List String)
  | acc, [] => .ok acc
  | acc, (k, vs) :: rest =>
    match sub.lookup k with
    | none => .error ("KeyError: " ++ k)
    | some svs => ccDiff sub (acc ++ symDiffRaw vs svs) rest

/-- `field_sym_difference` of `find_invalid_well_known` for one field name:
the raw mismatched members, or the uncaught-inside-the-try exception
(`set(None)` is a `TypeError`; a fetched ccTLD key absent from the
submission is a `KeyError`). -/
def fieldSymDiff (doc : WKDoc) (fps : FpsSet) (f : String) :
    Except String (List String) :=
  if f = "primary" then
    match doc.primary with
    | none => .ok []
    | some dp => .ok (if dp = fps.primary then [] else [dp, fps.primary])
  else if f = "associatedSites" then
    match doc.associatedSites with
    | none => .ok []
    | some l =>
      match fps.associated_sites with
      | none => .error "TypeError"
      | some sub => .ok (symDiffRaw l sub)
  else if f = "serviceSites" then
    match doc.serviceSites with
    | none => .ok []
    | some l =>
      match fps.service_sites with
      | none => .error "TypeError"
      | some sub => .ok (symDiffRaw l sub)
  else if f = "ccTLDs" then
    match doc.ccTLDs with
    | none => .ok []
    | some dl =>
      match fps.ccTLDs with
      | none => .error "TypeError"
      | some sl => ccDiff sl (symDiffRaw (dl.map Prod.fst) (sl.map Prod.fst)) dl
  else .ok []

/-- One iteration of the `schema_fields` loop: no finding when the symmetric
difference is empty, else one mismatch finding carrying the sorted members
(`str(sorted(field_sym_difference))`). -/
def checkField (doc : WKDoc) (fps : FpsSet) (f : String) :
    Except String (List Finding) :=
  match fieldSymDiff doc fps f with
  | .error e => .error e
  | .ok raw =>
    .ok (if raw.isEmpty then [] else [Finding.wkMismatch f (pySorted raw.dedup)])

/-- Does the fetched document have this top-level key? -/
def docHasField (doc : WKDoc) (f : String) : Bool :=
  if f = "ccTLDs" then doc.ccTLDs.isSome
  else if f = "primary" then doc.primary.isSome
  else if f = "associatedSites" then doc.associatedSites.isSome
  else if f = "serviceSites" then doc.serviceSites.isSome
  else false

/-- The `acceptable_fields` literal, in source order. -/
def acceptable_fields : List String :=
  ["ccTLDs", "primary", "associatedSites", "serviceSites"]

/-- `schema_fields = set(acceptable_fields) & set(json_schema.keys())`,
iterated in a fixed order (Python's set order is unspecified). -/
def schemaFields (doc : WKDoc) : List String :=
  acceptable_fields.filter (docHasField doc)

/-- The `for field in schema_fields` loop: findings already appended to
`error_list` stay even when a later field raises; the raised exception is
caught by the surrounding handler, which appends one unreachable finding
and skips the remaining fields. -/
def processFields (url : String) (doc : WKDoc) (fps : FpsSet) :
    List String → List Finding
  | [] => []
  | f :: rest =>
    match checkField doc fps f with
    | .error e => [Finding.wkUnreachable url e]
    | .ok fnds => fnds ++ processFields url doc fps rest

/-- The try-block of `find_invalid_well_known` for one set's primary. -/
def primary_section (oracle : JsonOracle) (fps : FpsSet) : List Finding :=
  match oracle (fps.primary ++ wkPath) with
  | .error e => [Finding.wkUnreachable (fps.primary ++ wkPath) e]
  | .ok doc => processFields (fps.primary ++ wkPath) doc fps (schemaFields doc)

/-- The ccTLD member loop of `find_invalid_well_known`: `ccTLD_sites` keeps
growing across alias keys and `check_list_sites` is called inside the loop,
so earlier aliases' sites are re-checked with every later key (as in the
source). -/
def ccTLD_member_checks (oracle : JsonOracle) (primary : String) :
    List String → List (String × List String) → List Finding
  | _, [] => []
  | acc, (_, vs) :: rest =>
    check_list_sites oracle primary (acc ++ vs) ++
    ccTLD_member_checks oracle primary (acc ++ vs) rest

/-- The member-site checks of `find_invalid_well_known` for one set. -/
def member_checks (oracle : JsonOracle) (fps : FpsSet) : List Finding :=
  (if truthy fps.associated_sites then
    check_list_sites oracle fps.primary (fps.associated_sites.getD [])
   else []) ++
  (if truthy fps.service_sites then
    check_list_sites oracle fps.primary (fps.service_sites.getD [])
   else []) ++
  (if truthy fps.ccTLDs then
    ccTLD_member_checks oracle fps.primary [] (fps.ccTLDs.getD [])
   else [])

/-- `FpsCheck.find_invalid_well_known` over the sets in dictionary order. -/
def find_invalid_well_known (oracle : JsonOracle) : List FpsSet → List Finding
  | [] => []
  | fps :: rest =>
    primary_section oracle fps ++ member_checks oracle fps ++
    find_invalid_well_known oracle rest

/-- C3: (append) `check_list_sites` processes domains independently, so it
distributes over list concatenation — one domain's outcome never aborts the
rest; (single failure) a fetch/parse failure for one domain is caught and
becomes exactly one unreachable finding naming the URL and the error;
(primary failure) a fetch/parse failure for the set's own primary becomes
exactly one unreachable finding and the checker still runs every member
check of that set and all later sets. -/
theorem c3_fetch_failures_isolated :
    (∀ (oracle : JsonOracle) (p : String) (xs ys : List String),
      check_list_sites oracle p (xs ++ ys) =
        check_list_sites oracle p xs ++ check_list_sites oracle p ys) ∧
    (∀ (oracle : JsonOracle) (p site e : String),
      oracle (site ++ wkPath) = .error e →
      check_list_sites oracle p [site] =
        [Finding.wkUnreachable (site ++ wkPath) e]) ∧
    (∀ (oracle : JsonOracle) (fps : FpsSet) (rest : List FpsSet) (e : String),
      oracle (fps.primary ++ wkPath) = .error e →
      find_invalid_well_known oracle (fps :: rest) =
        Finding.wkUnreachable (fps.primary ++ wkPath) e ::
          (member_checks oracle fps ++ find_invalid_well_known oracle rest)) := by
  refine ⟨?_, ?_, ?_⟩
  · intro oracle p xs ys
    induction xs with
    | nil => rfl
    | cons s ss ih => simp [check_list_sites, ih]
  · intro oracle p site e he
    simp [check_list_sites, he]
  · intro oracle fps rest e he
    simp [find_invalid_well_known, primary_section, he]

/-- A fetch collaborator that fails on every URL. -/
def failJsonOracle : JsonOracle := fun _ => .error "boom"

/-- Witness for C3 at concrete inputs, with an oracle that fails every
fetch. -/
theorem c3_fetch_failures_isolated_witness :
    check_list_sites failJsonOracle "https://p.example"
        (["https://a.example"] ++ ["https://b.example"]) =
      check_list_sites failJsonOracle "https://p.example"
        ["https://a.example"] ++
      check_list_sites failJsonOracle "https://p.example"
        ["https://b.example"] ∧
    check_list_sites failJsonOracle "https://p.example" ["https://a.example"] =
      [Finding.wkUnreachable ("https://a.example" ++ wkPath) "boom"] ∧
    find_invalid_well_known failJsonOracle
        [⟨none, "https://p.example", some ["https://a.example"], none⟩] =
      Finding.wkUnreachable ("https://p.example" ++ wkPath) "boom" ::
        (member_checks failJsonOracle
          ⟨none, "https://p.example", some ["https://a.example"], none⟩ ++
         find_invalid_well_known failJsonOracle []) :=
  ⟨c3_fetch_failures_isolated.1 failJsonOracle "https://p.example"
      ["https://a.example"] ["https://b.example"],
   c3_fetch_failures_isolated.2.1 failJsonOracle "https://p.example"
      "https://a.example" "boom" rfl,
   c3_fetch_failures_isolated.2.2 failJsonOracle
      ⟨none, "https://p.example", some ["https://a.example"], none⟩ [] "boom"
      rfl⟩

lemma no_mismatch_in_check_list_sites (oracle : JsonOracle) (p : String)
    (l : List String) (f : String) (m : List String) :
    Finding.wkMismatch f m ∉ check_list_sites oracle p l := by
  induction l with
  | nil => simp [check_list_sites]
  | cons s ss ih =>
    simp only [check_list_sites, List.mem_append]
    rintro (h | h)
    · rcases ho : oracle (s ++ wkPath) with e | d
      · rw [ho] at h; simp at h
      · rw [ho] at h
        rcases hd : d.primary with _ | dp
        · simp [hd] at h
        · simp only [hd] at h
          by_cases hp : dp = p <;> simp [hp] at h
    · exact ih h

lemma no_mismatch_in_ccTLD_member_checks (oracle : JsonOracle) (p : String)
    (l : List (String × List String)) (f : String) (m : List String) :
    ∀ acc, Finding.wkMismatch f m ∉ ccTLD_member_checks oracle p acc l := by
  induction l with
  | nil => intro acc; simp [ccTLD_member_checks]
  | cons kv rest ih =>
    intro acc
    cases kv with
    | mk k vs =>
      simp only [ccTLD_member_checks, List.mem_append]
      rintro (h | h)
      · exact no_mismatch_in_check_list_sites oracle p (acc ++ vs) f m h
      · exact ih (acc ++ vs) h

lemma no_mismatch_in_member_checks (oracle : JsonOracle) (fps : FpsSet)
    (f : String) (m : List String) :
    Finding.wkMismatch f m ∉ member_checks oracle fps := by
  simp only [member_checks, List.mem_append]
  rintro ((h | h) | h)
  · split at h
    · exact no_mismatch_in_check_list_sites oracle fps.primary _ f m h
    · simp at h
  · split at h
    · exact no_mismatch_in_check_list_sites oracle fps.primary _ f m h
    · simp at h
  · split at h
    · exact no_mismatch_in_ccTLD_member_checks oracle fps.primary _ f m [] h
    · simp at h

lemma checkField_ok_shape (doc : WKDoc) (fps : FpsSet) (f : String)
    (fnds : List Finding) (g : Finding) :
    checkField doc fps f = .ok fnds → g ∈ fnds →
    ∃ m, g = Finding.wkMismatch f m := by
  intro hok hg
  rcases hs : fieldSymDiff doc fps f with e | raw
  · rw [checkField, hs] at hok
    cases hok
  · rw [checkField, hs] at hok
    rcases hok with ⟨⟩
    by_cases hr : raw.isEmpty <;> simp [hr] at hg
    exact ⟨pySorted raw.dedup, hg⟩

lemma mismatch_field_in_processFields (url : String) (doc : WKDoc)
    (fps : FpsSet) (f : String) (m : List String) :
    ∀ fs, Finding.wkMismatch f m ∈ processFields url doc fps fs → f ∈ fs := by
  intro fs
  induction fs with
  | nil => simp [processFields]
  | cons f2 rest ih =>
    intro h
    rcases hc : checkField doc fps f2 with e | fnds
    · rw [processFields, hc] at h
      simp at h
    · rw [processFields, hc] at h
      rcases List.mem_append.mp h with h1 | h2
      · rcases checkField_ok_shape doc fps f2 fnds _ hc h1 with ⟨m2, hm⟩
        rcases hm with ⟨⟩
        exact List.mem_cons_self _ _
      · exact List.mem_cons_of_mem f2 (ih h2)

/-- C6: when the primary's well-known document is fetched successfully, any
mismatch finding `find_invalid_well_known` produces for the set names a
field that is a recognized field AND present in the fetched document; in
particular a recognized field the document omits entirely yields no finding
for that field, whatever the submission lists for it. -/
theorem c6_compares_only_shared_fields (oracle : JsonOracle) (fps : FpsSet)
    (doc : WKDoc) (f : String) (m : List String)
    (hfetch : oracle (fps.primary ++ wkPath) = .ok doc)
    (hmem : Finding.wkMismatch f m ∈ find_invalid_well_known oracle [fps]) :
    docHasField doc f = true ∧ f ∈ acceptable_fields := by
  simp only [find_invalid_well_known, List.append_nil, List.mem_append]
    at hmem
  rcases hmem with h | h
  · rw [primary_section, hfetch] at h
    have hf := mismatch_field_in_processFields (fps.primary ++ wkPath) doc fps
      f m (schemaFields doc) h
    rw [schemaFields, List.mem_filter] at hf
    exact ⟨hf.2, hf.1⟩
  · exact absurd h (no_mismatch_in_member_checks oracle fps f m)

/-- A fetch collaborator for the C6 witness: the primary's document has only
a (mismatching) `primary` field — `associatedSites` is omitted although the
submission lists one — and member fetches fail. -/
def c6Oracle : JsonOracle := fun u =>
  if u = "https://a.example/.well-known/first-party-set.json" then
    .ok ⟨some "https://z.example", none, none, none⟩
  else .error "e"

/-- Witness for C6: the mismatch finding the concrete run produces names the
`primary` field, which the fetched document has and which is recognized. -/
theorem c6_compares_only_shared_fields_witness :
    docHasField ⟨some "https://z.example", none, none, none⟩ "primary" =
      true ∧ "primary" ∈ acceptable_fields :=
  c6_compares_only_shared_fields c6Oracle
    ⟨none, "https://a.example", some ["https://b.example"], none⟩
    ⟨some "https://z.example", none, none, none⟩ "primary"
    ["https://a.example", "https://z.example"] (by rfl) (by decide)

/-- A `requests.get` response: status code, headers, and the final URL after
redirects. -/
structure HttpResp where
  status_code : Nat
  headers : List (String × String)
  url : String
  deriving DecidableEq

/-- The `requests.get` collaborator: a response, or the raised exception's
text. -/
abbrev HttpOracle := String → Except String HttpResp

/-- Python's `needle in hay` starting-at-head test. -/
def startsList : List Char → List Char → Bool
  | _, [] => true
  | [], _ :: _ => false
  | h :: hs, n :: ns => if h = n then startsList hs ns else false

/-- Python's substring containment over character lists. -/
def hasInfixChars : List Char → List Char → Bool
  | [], n => n.isEmpty
  | h :: hs, n => startsList (h :: hs) n || hasInfixChars hs n

/-- Python's `needle in hay` on strings. -/
def containsStr (hay needle : String) : Bool :=
  hasInfixChars hay.data needle.data

/-- `exception_retries` of `find_robots_txt`. -/
def exception_retries_robots : String :=
  "Max retries exceeded with url: /robots.txt"

/-- `exception_retries` of `find_ads_txt`. -/
def exception_retries_ads : String :=
  "Max retries exceeded with url: /ads.txt"

/-- `exception_retries` of `check_for_service_redirect`. -/
def exception_retries_root : String :=
  "Max retries exceeded with url: /"

/-- `exception_timeout`, shared by all three policy sub-checks. -/
def exception_timeout : String :=
  "Read timed out. (read timeout=10)"

/-- The except-clause classification shared by the three policy sub-checks:
an error is expected (and silent) exactly when its text contains the
sub-check's connection-exhaustion signature or the read-timeout signature. -/
def expectedFailure (sigRetries e : String) : Bool :=
  containsStr e sigRetries || containsStr e exception_timeout

/-- The per-service-site body of `FpsCheck.find_robots_txt`: both `get`s run
inside one try; an expected failure is silent, any other failure is one
unexpected-error finding. -/
def robots_site_findings (oracle : HttpOracle) (service_site : String) :
    List Finding :=
  match oracle (service_site ++ "/robots.txt") with
  | .ok r =>
    if r.status_code = 200 then
      match oracle service_site with
      | .ok rs =>
        match rs.headers.lookup "X-Robots-Tag" with
        | none => [Finding.robotsNoTag service_site]
        | some v =>
          if v ≠ "noindex" then [Finding.robotsNotNoindex service_site]
          else []
      | .error e =>
        if expectedFailure exception_retries_robots e then []
        else [Finding.unexpectedError service_site e]
    else []
  | .error e =>
    if expectedFailure exception_retries_robots e then []
    else [Finding.unexpectedError service_site e]

/-- `FpsCheck.find_robots_txt` over the sets in dictionary order. -/
def find_robots_txt (oracle : HttpOracle) : List FpsSet → List Finding
  | [] => []
  | fps :: rest =>
    (if truthy fps.service_sites then
      (fps.service_sites.getD []).flatMap (robots_site_findings oracle)
     else []) ++ find_robots_txt oracle rest

/-- The per-service-site body of `FpsCheck.find_ads_txt`: a 200 response to
`/ads.txt` is one advertising-marker finding; no other status yields one;
failures are classified as in the other sub-checks. -/
def ads_site_findings (oracle : HttpOracle) (service_site : String) :
    List Finding :=
  match oracle (service_site ++ "/ads.txt") with
  | .ok r => if r.status_code = 200 then [Finding.adsTxt service_site] else []
  | .error e =>
    if expectedFailure exception_retries_ads e then []
    else [Finding.unexpectedError service_site e]

/-- `FpsCheck.find_ads_txt` over the sets in dictionary order. -/
def find_ads_txt (oracle : HttpOracle) : List FpsSet → List Finding
  | [] => []
  | fps :: rest =>
    (if truthy fps.service_sites then
      (fps.service_sites.getD []).flatMap (ads_site_findings oracle)
     else []) ++ find_ads_txt oracle rest

/-- The per-service-site body of `FpsCheck.check_for_service_redirect`. -/
def redirect_site_findings (oracle : HttpOracle) (service_site : String) :
    List Finding :=
  match oracle service_site with
  | .ok r =>
    if r.status_code < 400 ∨ r.status_code ≥ 600 then
      if r.url = service_site ∨ r.url = service_site ++ "/" then
        [Finding.endpoint service_site]
      else []
    else []
  | .error e =>
    if expectedFailure exception_retries_root e then []
    else [Finding.unexpectedError service_site e]

/-- `FpsCheck.check_for_service_redirect` over the sets in dictionary
order. -/
def check_for_service_redirect (oracle : HttpOracle) :
    List FpsSet → List Finding
  | [] => []
  | fps :: rest =>
    (if truthy fps.service_sites then
      (fps.service_sites.getD []).flatMap (redirect_site_findings oracle)
     else []) ++ check_for_service_redirect oracle rest

/-- C9: in each of the three policy sub-checks, a fetch failure for a
service domain contributes zero findings when its error text matches the
sub-check's connection-exhaustion signature or the read-timeout signature,
and exactly one unexpected-error finding for that domain otherwise. -/
theorem c9_expected_failure_classification (p site e : String)
    (oracle : HttpOracle) :
    (oracle (site ++ "/robots.txt") = .error e →
      find_robots_txt oracle [⟨none, p, none, some [site]⟩] =
        (if expectedFailure exception_retries_robots e then []
         else [Finding.unexpectedError site e])) ∧
    (oracle (site ++ "/ads.txt") = .error e →
      find_ads_txt oracle [⟨none, p, none, some [site]⟩] =
        (if expectedFailure exception_retries_ads e then []
         else [Finding.unexpectedError site e])) ∧
    (oracle site = .error e →
      check_for_service_redirect oracle [⟨none, p, none, some [site]⟩] =
        (if expectedFailure exception_retries_root e then []
         else [Finding.unexpectedError site e])) := by
  refine ⟨?_, ?_, ?_⟩
  · intro he
    simp [find_robots_txt, robots_site_findings, truthy, he]
  · intro he
    simp [find_ads_txt, ads_site_findings, truthy, he]
  · intro he
    simp [check_for_service_redirect, redirect_site_findings, truthy, he]

/-- A transport that fails every request with a read-timeout message. -/
def timeoutHttpOracle : HttpOracle := fun _ =>
  .error "HTTPSConnectionPool(host=x): Read timed out. (read timeout=10)"

/-- A transport that fails every request with an unclassified message. -/
def oddHttpOracle : HttpOracle := fun _ =>
  .error "SSLError: bad handshake"

/-- Witness for C9 at a concrete service domain, under a timing-out
transport for the robots and redirect checks and an oddly-failing transport
for the ads check. -/
theorem c9_expected_failure_classification_witness :
    find_robots_txt timeoutHttpOracle
        [⟨none, "https://p.example", none, some ["https://svc.example"]⟩] =
      (if expectedFailure exception_retries_robots
          "HTTPSConnectionPool(host=x): Read timed out. (read timeout=10)"
       then []
       else [Finding.unexpectedError "https://svc.example"
          "HTTPSConnectionPool(host=x): Read timed out. (read timeout=10)"]) ∧
    find_ads_txt oddHttpOracle
        [⟨none, "https://p.example", none, some ["https://svc.example"]⟩] =
      (if expectedFailure exception_retries_ads "SSLError: bad handshake"
       then []
       else [Finding.unexpectedError "https://svc.example"
          "SSLError: bad handshake"]) ∧
    check_for_service_redirect timeoutHttpOracle
        [⟨none, "https://p.example", none, some ["https://svc.example"]⟩] =
      (if expectedFailure exception_retries_root
          "HTTPSConnectionPool(host=x): Read timed out. (read timeout=10)"
       then []
       else [Finding.unexpectedError "https://svc.example"
          "HTTPSConnectionPool(host=x): Read timed out. (read timeout=10)"]) :=
  ⟨(c9_expected_failure_classification "https://p.example"
      "https://svc.example" _ timeoutHttpOracle).1 rfl,
   (c9_expected_failure_classification "https://p.example"
      "https://svc.example" _ oddHttpOracle).2.1 rfl,
   (c9_expected_failure_classification "https://p.example"
      "https://svc.example" _ timeoutHttpOracle).2.2 rfl⟩

/-- A transport whose `/ads.txt` response for the concrete service domain is
a successful 204 (a 2xx status other than 200); every other request fails. -/
def noContentAdsOracle : HttpOracle := fun u =>
  if u = "https://svc.example/ads.txt" then .ok ⟨204, [], u⟩
  else .error "x"

/-- Counterexample to C8 as stated: a *successful (2xx)* `/ads.txt` response
with status 204 yields zero advertising-marker findings, because the source
tests `r.status_code == 200`, not the 2xx range. -/
theorem c8_two_xx_yields_no_finding :
    (200 ≤ 204 ∧ 204 < 300) ∧
    find_ads_txt noContentAdsOracle
      [⟨none, "https://p.example", none, some ["https://svc.example"]⟩] =
      [] :=
  ⟨by decide, by rfl⟩

/-- C8 (amended): an `/ads.txt` response with status exactly 200 yields
exactly one advertising-marker finding for the service domain, whatever the
transport returns for every other URL of the domain (its robots.txt and
root-page checks live in other checkers and other requests, which this
statement leaves fully unconstrained). -/
theorem c8_ads_txt_200_finding (oracle : HttpOracle) (p site : String)
    (r : HttpResp) (hok : oracle (site ++ "/ads.txt") = .ok r)
    (h200 : r.status_code = 200) :
    find_ads_txt oracle [⟨none, p, none, some [site]⟩] =
      [Finding.adsTxt site] := by
  simp [find_ads_txt, ads_site_findings, truthy, hok, h200]

/-- A transport whose `/ads.txt` response for the concrete service domain is
a 200; every other request fails. -/
def okAdsOracle : HttpOracle := fun u =>
  if u = "https://svc.example/ads.txt" then .ok ⟨200, [], u⟩
  else .error "x"

/-- Witness for the amended C8 at a concrete domain and 200 response. -/
theorem c8_ads_txt_200_finding_witness :
    find_ads_txt okAdsOracle
      [⟨none, "https://p.example", none, some ["https://svc.example"]⟩] =
      [Finding.adsTxt "https://svc.example"] :=
  c8_ads_txt_200_finding okAdsOracle "https://p.example" "https://svc.example"
    ⟨200, [], "https://svc.example/ads.txt"⟩ rfl rfl
